import Mathlib

/-!
# SoloFinance: the ledger of `script.js`

A shallow embedding of the in-memory ledger of `script.js` and of the values
its dashboard derives from it.

* The global `transactions` array is a `List Transaction`; every function that
  reads or assigns it takes the list and returns the new one.
* `Date.now()` and `new Date()` are an explicit `Clock` argument, the answer of
  `confirm(...)` is an explicit `Bool`, and the value of the `incomeGoal` input
  is an explicit `String`.
* JavaScript numbers are `Num`: rationals together with `NaN` and the two
  infinities. `parseFloat` rounds the decimal it reads to the nearest binary64
  value, with underflow to `0` and overflow to `Infinity`, as the built-in does.
  The arithmetic operators are exact on the finite values (their results are
  not rounded). The statements on goal progress are over this exact arithmetic;
  the statements on sums are phrased as the left-to-right reduction the code
  performs and use no law of exact addition.
* What the code writes into the page is returned as a record (`Dashboard`,
  `GoalView`); the currency and percentage formatting of the texts is kept
  symbolic.
-/

namespace SoloFinance

/-! ## Numbers -/

/-- A JavaScript number: `NaN`, an exact finite value, `Infinity` or `-Infinity`. -/
inductive Num where
  | nan
  | fin (q : ℚ)
  | posInf
  | negInf
  deriving DecidableEq

namespace Num

/-- The number `0`, the start value of every `reduce` in the script. -/
def zero : Num := fin 0

/-- The operator `a + b` on numbers. -/
def add : Num → Num → Num
  | fin a, fin b => fin (a + b)
  | fin _, posInf => posInf
  | fin _, negInf => negInf
  | posInf, fin _ => posInf
  | posInf, posInf => posInf
  | negInf, fin _ => negInf
  | negInf, negInf => negInf
  | _, _ => nan

/-- Unary minus. -/
def neg : Num → Num
  | nan => nan
  | fin a => fin (-a)
  | posInf => negInf
  | negInf => posInf

/-- The operator `a - b` on numbers. -/
def sub (a b : Num) : Num := add a (neg b)

/-- The operator `a * b` on numbers. -/
def mul : Num → Num → Num
  | fin a, fin b => fin (a * b)
  | fin a, posInf => if a = 0 then nan else if 0 < a then posInf else negInf
  | fin a, negInf => if a = 0 then nan else if 0 < a then negInf else posInf
  | posInf, fin b => if b = 0 then nan else if 0 < b then posInf else negInf
  | negInf, fin b => if b = 0 then nan else if 0 < b then negInf else posInf
  | posInf, posInf => posInf
  | negInf, negInf => posInf
  | posInf, negInf => negInf
  | negInf, posInf => negInf
  | _, _ => nan

/-- The operator `a / b` on numbers, for a divisor that is not zero (the script
divides only by a goal it has tested to be `> 0`); the quotient by zero is left
as `NaN`. -/
def div : Num → Num → Num
  | fin a, fin b => if b = 0 then nan else fin (a / b)
  | fin _, posInf => fin 0
  | fin _, negInf => fin 0
  | posInf, fin b => if b = 0 then nan else if 0 < b then posInf else negInf
  | negInf, fin b => if b = 0 then nan else if 0 < b then negInf else posInf
  | _, _ => nan

/-- The comparison `a > b`; false as soon as one side is `NaN`. -/
def gt : Num → Num → Bool
  | fin a, fin b => decide (b < a)
  | posInf, fin _ => true
  | posInf, negInf => true
  | fin _, negInf => true
  | _, _ => false

/-- The comparison `a < b`; false as soon as one side is `NaN`. -/
def lt (a b : Num) : Bool := gt b a

/-- Strict equality `a === b` on numbers: `NaN` equals nothing. -/
def strictEq : Num → Num → Bool
  | fin a, fin b => decide (a = b)
  | posInf, posInf => true
  | negInf, negInf => true
  | _, _ => false

/-- The function `Math.min(a, b)`. -/
def min (a b : Num) : Num :=
  match a, b with
  | nan, _ => nan
  | _, nan => nan
  | _, _ => if gt a b then b else a

/-- The function `Math.max(a, b)`. -/
def max (a b : Num) : Num :=
  match a, b with
  | nan, _ => nan
  | _, nan => nan
  | _, _ => if gt b a then b else a

/-- Truthiness of a number: `NaN` and `0` are falsy. -/
def truthy : Num → Bool
  | nan => false
  | fin a => decide (a ≠ 0)
  | _ => true

end Num

/-! ## Strings -/

/-- The code points `trim` and `parseFloat` strip: the white space and line
terminator characters of ECMAScript. -/
def isStrWhiteSpaceChar (c : Char) : Bool :=
  let n := c.toNat
  n = 0x09 || n = 0x0A || n = 0x0B || n = 0x0C || n = 0x0D || n = 0x20
    || n = 0xA0 || n = 0x1680 || (0x2000 ≤ n && n ≤ 0x200A) || n = 0x2028
    || n = 0x2029 || n = 0x202F || n = 0x205F || n = 0x3000 || n = 0xFEFF

/-- The method `String.prototype.trim`: white space removed from both ends. -/
def trim (s : String) : String :=
  ⟨((s.data.dropWhile isStrWhiteSpaceChar).reverse.dropWhile isStrWhiteSpaceChar).reverse⟩

/-- The method `String.prototype.startsWith`. -/
def startsWith (s searchString : String) : Bool :=
  searchString.data.isPrefixOf s.data

/-- The method `String.prototype.padStart(targetLength, '0')`. -/
def padStart (s : String) (targetLength : Nat) : String :=
  ⟨List.replicate (targetLength - s.length) '0' ++ s.data⟩

/-- Truthiness of a string: only the empty string is falsy. -/
def strTruthy (s : String) : Bool := !s.data.isEmpty

/-! ## parseFloat -/

/-- A decimal digit. -/
def isDecimalDigit (c : Char) : Bool := '0' ≤ c && c ≤ '9'

/-- The value of a run of decimal digits. -/
def digitsValue (ds : List Char) : Nat :=
  ds.foldl (fun n c => 10 * n + (c.toNat - 48)) 0

/-- The exponent an `ExponentPart` at the head of `rest` contributes: `e` or `E`,
an optional sign and at least one digit; `0` when `rest` starts with none. -/
def exponentPart (rest : List Char) : Int :=
  match rest with
  | [] => 0
  | c :: r =>
    if c = 'e' ∨ c = 'E' then
      match r with
      | '+' :: r2 => (digitsValue (r2.takeWhile isDecimalDigit) : Int)
      | '-' :: r2 => - (digitsValue (r2.takeWhile isDecimalDigit) : Int)
      | _ => (digitsValue (r.takeWhile isDecimalDigit) : Int)
    else 0

/-- The number of binary digits of `n` added to `acc`, in at most `fuel`
halvings. -/
def bitLengthAux : Nat → Nat → Nat → Nat
  | 0, _, acc => acc
  | fuel + 1, n, acc => if n = 0 then acc else bitLengthAux fuel (n / 2) (acc + 1)

/-- The number of binary digits of `n`: `0` for `0`, else `⌊log₂ n⌋ + 1`. -/
def bitLength (n : Nat) : Nat := bitLengthAux n n 0

/-- The binary exponent of the positive ratio `n / d`: the `e` with
`2 ^ e ≤ n / d < 2 ^ (e + 1)`. -/
def binaryExponent (n d : Nat) : Int :=
  let e0 : Int := (bitLength n : Int) - (bitLength d : Int)
  let atLeast : Bool :=
    if 0 ≤ e0 then decide (d * 2 ^ e0.toNat ≤ n) else decide (d ≤ n * 2 ^ (-e0).toNat)
  if atLeast then e0 else e0 - 1

/-- The ratio `n / d` rounded to the nearest binary64 value, ties to the even
significand: `some (k, p)` stands for `k * 2 ^ p`, where `p` is the exponent of
the last place (53 significant bits, never below `2 ^ (-1074)`), and `none` for
an overflow to `Infinity`. -/
def roundBinary64 (n d : Nat) : Option (Nat × Int) :=
  if n = 0 then some (0, 0)
  else
    let e := binaryExponent n d
    let p : Int := (if e < -1022 then -1022 else e) - 52
    let num : Nat := if 0 ≤ p then n else n * 2 ^ (-p).toNat
    let den : Nat := if 0 ≤ p then d * 2 ^ p.toNat else d
    let k := num / den
    let r := num % den
    let k1 := if 2 * r < den then k else if den < 2 * r then k + 1
              else if k % 2 = 0 then k else k + 1
    if 0 ≤ p ∧ 2 ^ 1024 ≤ k1 * 2 ^ p.toNat then none else some (k1, p)

/-- The decimal `m * 10 ^ e` rounded to binary64. -/
def decimalToBinary64 (m : Nat) (e : Int) : Option (Nat × Int) :=
  if 0 ≤ e then roundBinary64 (m * 10 ^ e.toNat) 1 else roundBinary64 m (10 ^ (-e).toNat)

/-- The number a rounding result stands for. -/
def binary64Value : Option (Nat × Int) → Num
  | none => Num.posInf
  | some (k, p) => Num.fin ((k : ℚ) * (2 : ℚ) ^ p)

/-- The value of the longest prefix of `s` that is a `StrUnsignedDecimalLiteral`
(`Infinity`, `digits . digits? exponent?`, `. digits exponent?` or
`digits exponent?`), rounded to binary64; `NaN` when there is none. -/
def parseUnsigned (s : List Char) : Num :=
  if "Infinity".data.isPrefixOf s then Num.posInf
  else
    let intPart := s.takeWhile isDecimalDigit
    let r1 := s.dropWhile isDecimalDigit
    match r1 with
    | '.' :: r2 =>
      let fracPart := r2.takeWhile isDecimalDigit
      let r3 := r2.dropWhile isDecimalDigit
      if intPart.isEmpty && fracPart.isEmpty then Num.nan
      else binary64Value (decimalToBinary64 (digitsValue (intPart ++ fracPart))
             (exponentPart r3 - (fracPart.length : Int)))
    | _ =>
      if intPart.isEmpty then Num.nan
      else binary64Value (decimalToBinary64 (digitsValue intPart) (exponentPart r1))

/-- The global `parseFloat` on a string: leading white space is skipped, then
the longest prefix that is a signed decimal literal is read and rounded to
binary64; `NaN` when there is no such prefix. -/
def parseFloat (s : String) : Num :=
  match s.data.dropWhile isStrWhiteSpaceChar with
  | '+' :: r => parseUnsigned r
  | '-' :: r => Num.neg (parseUnsigned r)
  | r => parseUnsigned r

/-! ## The clock -/

/-- One reading of the wall clock: what `Date.now()` returns and the calendar
fields of `new Date()` at that instant, in local time (`getFullYear`,
`getMonth`) and in UTC (the fields `toISOString` prints). Years are taken from
year 0 on. -/
structure Clock where
  /-- The value of `Date.now()`: milliseconds since the epoch. -/
  now : Int
  /-- The value of `getFullYear()`, local time. -/
  fullYear : Nat
  /-- The value of `getMonth()`, local time, counted from 0. -/
  month : Nat
  /-- The value of `getUTCFullYear()`. -/
  utcFullYear : Nat
  /-- The value of `getUTCMonth()`, counted from 0. -/
  utcMonth : Nat
  /-- The value of `getUTCDate()`, the day of the month. -/
  utcDate : Nat

/-- The function `getCurrentMonth()`: the local year, a dash and the local month number
padded to two digits. -/
def getCurrentMonth (clock : Clock) : String :=
  toString clock.fullYear ++ "-" ++ padStart (toString (clock.month + 1)) 2

/-- The year as `toISOString` prints it: four digits up to 9999, a plus sign and
six digits beyond. -/
def isoYear (y : Nat) : String :=
  if y ≤ 9999 then padStart (toString y) 4 else "+" ++ padStart (toString y) 6

/-- The expression `new Date().toISOString().split('T')[0]`: the part of the ISO 8601 UTC time
stamp in front of the `T`, that is year, month and day in UTC. -/
def isoDate (clock : Clock) : String :=
  isoYear clock.utcFullYear ++ "-" ++ padStart (toString (clock.utcMonth + 1)) 2
    ++ "-" ++ padStart (toString clock.utcDate) 2

/-! ## The ledger -/

/-- A transaction as `addTransaction` builds it. -/
structure Transaction where
  id : Int
  description : String
  amount : Num
  type : String
  category : String
  date : String
  deriving DecidableEq

/-- The function `addTransaction(description, amount, type, category)`: builds the
transaction from the arguments and the clock and puts it in front
(`unshift`). -/
def addTransaction (clock : Clock) (description amount type category : String)
    (transactions : List Transaction) : List Transaction :=
  let transaction : Transaction :=
    { id := clock.now
      description := description
      amount := parseFloat amount
      type := type
      category := category
      date := isoDate clock }
  transaction :: transactions

/-- The function `deleteTransaction(id)`: keeps the transactions whose id is not `id`. -/
def deleteTransaction (id : Int) (transactions : List Transaction) : List Transaction :=
  transactions.filter (fun t => t.id != id)

/-- The function `clearAllTransactions()`; `confirm` is the answer of the confirmation
dialog, which is asked only when the ledger is not empty. -/
def clearAllTransactions (confirm : Bool) (transactions : List Transaction) :
    List Transaction :=
  if transactions.length = 0 then transactions
  else if confirm then []
  else transactions

/-- The submit handler of `transactionForm`; the four arguments are the values
of the `description`, `amount`, `type` and `category` fields. -/
def transactionFormSubmit (clock : Clock)
    (descriptionValue amountValue typeValue categoryValue : String)
    (transactions : List Transaction) : List Transaction :=
  let description := trim descriptionValue
  if strTruthy description && strTruthy amountValue
      && Num.gt (parseFloat amountValue) Num.zero then
    addTransaction clock description amountValue typeValue categoryValue transactions
  else transactions

/-- The array `demoTransactions` of `loadDemoData`: description, amount (the
number literal as `parseFloat` sees it, converted to a string), type and
category. -/
def demoTransactions : List (String × String × String × String) :=
  [ ("Salary Payment", "3500", "income", "salary"),
    ("Grocery Store", "89.5", "expense", "food"),
    ("Gas Station", "45", "expense", "transport"),
    ("Freelance Project", "800", "income", "freelance"),
    ("Netflix Subscription", "15.99", "expense", "entertainment") ]

/-- The function `loadDemoData()`: one `addTransaction` per demo entry, in order; `clockAt i`
is the clock reading during the call for entry `i`. -/
def loadDemoData (clockAt : Nat → Clock) (transactions : List Transaction) :
    List Transaction :=
  demoTransactions.enum.foldl
    (fun ts entry =>
      addTransaction (clockAt entry.1) entry.2.1 entry.2.2.1 entry.2.2.2.1 entry.2.2.2.2 ts)
    transactions

/-! ## The dashboard -/

/-- The reduction `.reduce((sum, t) => sum + t.amount, 0)`. -/
def sumAmounts (transactions : List Transaction) : Num :=
  transactions.foldl (fun sum t => Num.add sum t.amount) Num.zero

/-- What `updateIncomeGoalProgress` writes into `goalStatus`. -/
inductive GoalStatus where
  /-- The text 'Set your monthly income goal'. -/
  | setGoal
  /-- The text made of `progress.toFixed(1)`, '% complete', the formatted
  `remaining` and 'remaining'. -/
  | complete (progress remaining : Num)
  deriving DecidableEq

/-- The two things `updateIncomeGoalProgress` sets: the width of the progress
bar in percent and the status text. -/
structure GoalView where
  progress : Num
  goalStatus : GoalStatus
  deriving DecidableEq

/-- The function `updateIncomeGoalProgress(monthlyIncome)`; `goalValue` is the value of the
`incomeGoal` input. -/
def updateIncomeGoalProgress (goalValue : String) (monthlyIncome : Num) : GoalView :=
  let parsed := parseFloat goalValue
  let goal := if parsed.truthy then parsed else Num.zero
  let progress :=
    if Num.gt goal Num.zero then
      Num.min (Num.mul (Num.div monthlyIncome goal) (Num.fin 100)) (Num.fin 100)
    else Num.zero
  { progress := progress
    goalStatus :=
      if Num.strictEq goal Num.zero then GoalStatus.setGoal
      else
        let remaining := Num.max Num.zero (Num.sub goal monthlyIncome)
        GoalStatus.complete progress remaining }

/-- The text of the balance change indicator. -/
inductive BalanceChange where
  | startByAdding
  | positiveBalance
  | negativeBalance
  | breakingEven
  deriving DecidableEq

/-- The values `updateDashboard` computes and displays. -/
structure Dashboard where
  totalIncome : Num
  totalExpenses : Num
  balance : Num
  monthlyIncome : Num
  monthlyExpenses : Num
  monthlyNet : Num
  balanceChange : BalanceChange
  goal : GoalView
  deriving DecidableEq

/-- The constant `monthlyIncome` of `updateDashboard`, `currentMonth` being the
month key: the transactions whose date starts with the key, of these the ones of
type income, reduced to the sum of their amounts. -/
def monthlyIncome (currentMonth : String) (transactions : List Transaction) : Num :=
  let monthlyTransactions := transactions.filter (fun t => startsWith t.date currentMonth)
  sumAmounts (monthlyTransactions.filter (fun t => t.type == "income"))

/-- The constant `monthlyExpenses` of `updateDashboard`. -/
def monthlyExpenses (currentMonth : String) (transactions : List Transaction) : Num :=
  let monthlyTransactions := transactions.filter (fun t => startsWith t.date currentMonth)
  sumAmounts (monthlyTransactions.filter (fun t => t.type == "expense"))

/-- The constant `monthlyNet` of `updateDashboard`. -/
def monthlyNet (currentMonth : String) (transactions : List Transaction) : Num :=
  Num.sub (monthlyIncome currentMonth transactions) (monthlyExpenses currentMonth transactions)

/-- The function `updateDashboard()`, reading the ledger, the clock (through
`getCurrentMonth`) and the `incomeGoal` input. -/
def updateDashboard (clock : Clock) (goalValue : String)
    (transactions : List Transaction) : Dashboard :=
  let totalIncome := sumAmounts (transactions.filter (fun t => t.type == "income"))
  let totalExpenses := sumAmounts (transactions.filter (fun t => t.type == "expense"))
  let balance := Num.sub totalIncome totalExpenses
  let currentMonth := getCurrentMonth clock
  { totalIncome := totalIncome
    totalExpenses := totalExpenses
    balance := balance
    monthlyIncome := monthlyIncome currentMonth transactions
    monthlyExpenses := monthlyExpenses currentMonth transactions
    monthlyNet := monthlyNet currentMonth transactions
    balanceChange :=
      if transactions.length = 0 then BalanceChange.startByAdding
      else if Num.gt balance Num.zero then BalanceChange.positiveBalance
      else if Num.lt balance Num.zero then BalanceChange.negativeBalance
      else BalanceChange.breakingEven
    goal := updateIncomeGoalProgress goalValue (monthlyIncome currentMonth transactions) }

/-- The monthly income as the `input` listener of `incomeGoal` computes it: one
filter on type and month, then the reduction. -/
def incomeGoalInputMonthlyIncome (clock : Clock) (transactions : List Transaction) : Num :=
  sumAmounts (transactions.filter
    (fun t => t.type == "income" && startsWith t.date (getCurrentMonth clock)))

/-- The `input` listener of `incomeGoal`. -/
def incomeGoalInput (clock : Clock) (goalValue : String)
    (transactions : List Transaction) : GoalView :=
  updateIncomeGoalProgress goalValue (incomeGoalInputMonthlyIncome clock transactions)

/-! ## Sequences of calls -/

/-- One call on the ledger. -/
inductive Call where
  | add (clock : Clock) (description amount type category : String)
  | delete (id : Int)
  | clear (confirm : Bool)

/-- The ledger after one call. -/
def Call.apply (c : Call) (transactions : List Transaction) : List Transaction :=
  match c with
  | .add clock description amount type category =>
    addTransaction clock description amount type category transactions
  | .delete id => deleteTransaction id transactions
  | .clear confirm => clearAllTransactions confirm transactions

/-- The ledger after a sequence of calls, first call first. -/
def runCalls (calls : List Call) (transactions : List Transaction) : List Transaction :=
  calls.foldl (fun ts c => c.apply ts) transactions

/-- The clock readings of the `addTransaction` calls of a sequence, in order. -/
def addClocks : List Call → List Int
  | [] => []
  | .add clock _ _ _ _ :: rest => clock.now :: addClocks rest
  | _ :: rest => addClocks rest

/-! ## The transactions of a month as the specification words them -/

/-- The transactions of the ledger, in ledger order, whose type is `type` and
whose date starts with the month key: the ones the specification sums for the
monthly income (`type` income) and the monthly expenses (`type` expense). -/
def monthlyOfType (type key : String) (transactions : List Transaction) :
    List Transaction :=
  transactions.filter (fun t => t.type == type && startsWith t.date key)

/-! ## Concrete inputs -/

/-- The instant 2024-02-01T01:00:00Z read in a time zone five hours behind UTC:
locally it is still 31 January 2024, 20:00. -/
def clockJanLocalFebUtc : Clock :=
  { now := 1706749200000, fullYear := 2024, month := 0,
    utcFullYear := 2024, utcMonth := 1, utcDate := 1 }

/-- A clock reading in the first half of 2024, local time and UTC in the same
month. -/
def clockMarch : Clock :=
  { now := 1710000000000, fullYear := 2024, month := 2,
    utcFullYear := 2024, utcMonth := 2, utcDate := 9 }

/-- The ledger after one salary was entered at `clockMarch`. -/
def salaryLedger : List Transaction :=
  addTransaction clockMarch "Salary" "3500" "income" "salary" []

/-- Two adds that read the same clock value. -/
def twoAddsOneInstant : List Call :=
  [ Call.add clockMarch "Salary" "3500" "income" "salary",
    Call.add clockMarch "Groceries" "89.50" "expense" "food" ]

/-! ## Evaluation lemmas -/

theorem decimalToBinary64_3500 :
    decimalToBinary64 3500 0 = some (7696581394432000, -41) := by decide

theorem decimalToBinary64_8950 :
    decimalToBinary64 8950 (-2) = some (6298002603900928, -46) := by decide

theorem decimalToBinary64_5 :
    decimalToBinary64 5 0 = some (5629499534213120, -50) := by decide

theorem decimalToBinary64_1000 :
    decimalToBinary64 1000 0 = some (8796093022208000, -43) := by decide

theorem decimalToBinary64_1e_400 :
    decimalToBinary64 1 (-400) = some (0, -1074) := by decide!

theorem parseFloat_3500 : parseFloat "3500" = Num.fin 3500 := by
  simp [parseFloat, parseUnsigned, isStrWhiteSpaceChar, isDecimalDigit, digitsValue,
    exponentPart, decimalToBinary64_3500, binary64Value]
  norm_num

theorem parseFloat_89_50 : parseFloat "89.50" = Num.fin (179 / 2) := by
  simp [parseFloat, parseUnsigned, isStrWhiteSpaceChar, isDecimalDigit, digitsValue,
    exponentPart, decimalToBinary64_8950, binary64Value]
  norm_num

theorem parseFloat_5 : parseFloat "5" = Num.fin 5 := by
  simp [parseFloat, parseUnsigned, isStrWhiteSpaceChar, isDecimalDigit, digitsValue,
    exponentPart, decimalToBinary64_5, binary64Value]
  norm_num

theorem parseFloat_neg_5 : parseFloat "-5" = Num.fin (-5) := by
  simp [parseFloat, parseUnsigned, isStrWhiteSpaceChar, isDecimalDigit, digitsValue,
    exponentPart, Num.neg, decimalToBinary64_5, binary64Value]
  norm_num

/-- The literal `1e-400` is below half the smallest binary64 value and reads as
`0`. -/
theorem parseFloat_1e_400 : parseFloat "1e-400" = Num.fin 0 := by
  simp [parseFloat, parseUnsigned, isStrWhiteSpaceChar, isDecimalDigit, digitsValue,
    exponentPart, decimalToBinary64_1e_400, binary64Value]

theorem parseFloat_abc : parseFloat "abc" = Num.nan := by decide

theorem parseFloat_empty : parseFloat "" = Num.nan := by decide

/-! ## Adding -/

/-- C4: for every ledger and every add, valid or not, `addTransaction` yields a
ledger one longer, whose first element carries the clock reading as id, exactly
the given description, type and category and the parsed amount, and whose other
elements are the old ledger in its order; adding Salary and then Groceries
gives the order Groceries, Salary. -/
theorem addTransaction_front (clock : Clock) (description amount type category : String)
    (L : List Transaction) :
    (addTransaction clock description amount type category L).length = L.length + 1
    ∧ (addTransaction clock description amount type category L).head?
        = some { id := clock.now, description := description, amount := parseFloat amount,
                 type := type, category := category, date := isoDate clock }
    ∧ (addTransaction clock description amount type category L).tail = L
    ∧ ((addTransaction clockMarch "Groceries" "89.50" "expense" "food"
          (addTransaction clockMarch "Salary" "3500" "income" "salary" [])).map
        (fun t => (t.description, t.amount, t.type)))
        = [("Groceries", Num.fin (179 / 2), "expense"), ("Salary", Num.fin 3500, "income")] := by
  refine ⟨by simp [addTransaction], by simp [addTransaction], by simp [addTransaction], ?_⟩
  simp [addTransaction, parseFloat_3500, parseFloat_89_50]

/-! ## Deleting -/

theorem deleteTransaction_of_absent (id : Int) (L : List Transaction)
    (h : ∀ t ∈ L, t.id ≠ id) : deleteTransaction id L = L := by
  unfold deleteTransaction
  rw [List.filter_eq_self]
  intro t ht
  simpa using h t ht

/-- C6: `deleteTransaction(id)` with an id that no transaction of the ledger has
returns the ledger as it was; in general the result is the ledger with some
elements left out and the order kept, it holds exactly the transactions whose
id is not `id`, and each of these as often as before. -/
theorem deleteTransaction_removes_only_id (id : Int) (L : List Transaction) :
    ((∀ t ∈ L, t.id ≠ id) → deleteTransaction id L = L)
    ∧ (deleteTransaction id L).Sublist L
    ∧ (∀ t, t ∈ deleteTransaction id L ↔ t ∈ L ∧ t.id ≠ id)
    ∧ (∀ t, t.id ≠ id → (deleteTransaction id L).count t = L.count t) := by
  refine ⟨deleteTransaction_of_absent id L, ?_, ?_, ?_⟩
  · exact List.filter_sublist L
  · intro t
    simp [deleteTransaction]
  · intro t ht
    unfold deleteTransaction
    rw [List.count_filter]
    simpa using ht

theorem deleteTransaction_removes_only_id_witness :
    (deleteTransaction 7 salaryLedger = salaryLedger)
    ∧ (deleteTransaction clockMarch.now salaryLedger = []) := by
  refine ⟨(deleteTransaction_removes_only_id 7 salaryLedger).1 ?_, ?_⟩
  · intro t ht
    simp [salaryLedger, addTransaction, clockMarch] at ht
    subst ht
    decide
  · simp [salaryLedger, addTransaction, deleteTransaction]

/-- Deleting by the id of the transaction just added gives the old ledger back,
provided no transaction of the old ledger has that id. -/
theorem deleteTransaction_addTransaction_of_fresh (clock : Clock)
    (description amount type category : String) (L : List Transaction)
    (h : ∀ t ∈ L, t.id ≠ clock.now) :
    deleteTransaction clock.now
      (addTransaction clock description amount type category L) = L := by
  have hL := deleteTransaction_of_absent clock.now L h
  simp only [deleteTransaction] at hL
  simp [addTransaction, deleteTransaction, hL]

/-- C2: a ledger that already holds a transaction entered at the same clock
value loses that one too: after Salary and Groceries are added at one clock
value, deleting by the id of Groceries leaves the empty ledger, of length 0 and
with total income 0, where the ledger before the add had length 1 and total
income 3500. -/
theorem delete_after_add_same_instant :
    deleteTransaction clockMarch.now
        (addTransaction clockMarch "Groceries" "89.50" "expense" "food" salaryLedger) = []
    ∧ salaryLedger.length = 1
    ∧ (updateDashboard clockMarch "" salaryLedger).totalIncome = Num.fin 3500
    ∧ (updateDashboard clockMarch ""
        (deleteTransaction clockMarch.now
          (addTransaction clockMarch "Groceries" "89.50" "expense" "food"
            salaryLedger))).totalIncome = Num.fin 0 := by
  have h : deleteTransaction clockMarch.now
      (addTransaction clockMarch "Groceries" "89.50" "expense" "food" salaryLedger) = [] := by
    simp [salaryLedger, addTransaction, deleteTransaction]
  refine ⟨h, by simp [salaryLedger, addTransaction], ?_, ?_⟩
  · simp [updateDashboard, salaryLedger, addTransaction, sumAmounts, parseFloat_3500,
      Num.zero, Num.add]
  · rw [h]
    simp [updateDashboard, sumAmounts, Num.zero]

/-! ## Clearing -/

/-- C5, as the code has it: on a ledger that is not empty, `clearAllTransactions`
yields the empty ledger when the confirmation is answered with yes, and then
the totals, the balance and the monthly aggregates are all zero whatever the
clock and the goal; when the confirmation is answered with no the ledger
stays as it was. -/
theorem clearAllTransactions_confirmed (L : List Transaction) (h : L ≠ [])
    (clock : Clock) (goalValue : String) :
    clearAllTransactions true L = []
    ∧ clearAllTransactions false L = L
    ∧ (updateDashboard clock goalValue (clearAllTransactions true L)).totalIncome = Num.fin 0
    ∧ (updateDashboard clock goalValue (clearAllTransactions true L)).totalExpenses = Num.fin 0
    ∧ (updateDashboard clock goalValue (clearAllTransactions true L)).balance = Num.fin 0
    ∧ (updateDashboard clock goalValue (clearAllTransactions true L)).monthlyIncome = Num.fin 0
    ∧ (updateDashboard clock goalValue (clearAllTransactions true L)).monthlyExpenses = Num.fin 0
    ∧ (updateDashboard clock goalValue (clearAllTransactions true L)).monthlyNet = Num.fin 0 := by
  have hlen : L.length ≠ 0 := by simpa using h
  have hc : clearAllTransactions true L = [] := by simp [clearAllTransactions, hlen]
  refine ⟨hc, by simp [clearAllTransactions], ?_, ?_, ?_, ?_, ?_, ?_⟩ <;>
    simp [hc, updateDashboard, monthlyIncome, monthlyExpenses, monthlyNet, sumAmounts,
      Num.zero, Num.sub, Num.add, Num.neg]

theorem clearAllTransactions_confirmed_witness :
    salaryLedger ≠ [] ∧ clearAllTransactions true salaryLedger = [] :=
  ⟨by simp [salaryLedger, addTransaction],
   (clearAllTransactions_confirmed salaryLedger (by simp [salaryLedger, addTransaction])
      clockMarch "1000").1⟩

/-- The ledger `salaryLedger` is not empty, and `clearAllTransactions` with the
confirmation answered no does not empty it. -/
theorem clearAllTransactions_declined :
    salaryLedger ≠ [] ∧ clearAllTransactions false salaryLedger ≠ [] := by
  constructor <;> simp [clearAllTransactions, salaryLedger, addTransaction]

/-! ## Validation in the submit handler -/

theorem strTruthy_iff (s : String) : strTruthy s = true ↔ s ≠ "" := by
  cases s with
  | mk data =>
    cases data with
    | nil => simp [strTruthy]
    | cons c cs =>
      simp only [strTruthy, List.isEmpty_cons, Bool.not_false, true_iff]
      intro h
      have := congrArg String.data h
      simp at this

/-- C3, as the code has it: the submit handler leaves the ledger as it was when
the description is empty after trimming, when the amount field is empty, when
the amount parses to `NaN`, or when the parsed amount is not greater than
zero. In every other case it adds the transaction built from the trimmed
description, the parsed amount and the type and category fields as they are,
whatever the type field holds: the type is not examined. -/
theorem transactionFormSubmit_validation (clock : Clock)
    (descriptionValue amountValue typeValue categoryValue : String)
    (L : List Transaction) :
    ((trim descriptionValue = "" ∨ amountValue = "" ∨ parseFloat amountValue = Num.nan
          ∨ Num.gt (parseFloat amountValue) Num.zero = false) →
        transactionFormSubmit clock descriptionValue amountValue typeValue categoryValue L = L)
    ∧ (trim descriptionValue ≠ "" → amountValue ≠ "" →
        Num.gt (parseFloat amountValue) Num.zero = true →
        transactionFormSubmit clock descriptionValue amountValue typeValue categoryValue L
          = { id := clock.now, description := trim descriptionValue,
              amount := parseFloat amountValue, type := typeValue,
              category := categoryValue, date := isoDate clock } :: L) := by
  constructor
  · intro h
    unfold transactionFormSubmit
    rcases h with h | h | h | h
    · simp [h, strTruthy]
    · simp [h, strTruthy]
    · simp [h, Num.gt]
    · simp [h]
  · intro hd ha hgt
    have h1 : strTruthy (trim descriptionValue) = true := (strTruthy_iff _).mpr hd
    have h2 : strTruthy amountValue = true := (strTruthy_iff _).mpr ha
    simp [transactionFormSubmit, h1, h2, hgt, addTransaction]

theorem transactionFormSubmit_validation_witness :
    transactionFormSubmit clockMarch "  " "5" "income" "salary" salaryLedger = salaryLedger
    ∧ transactionFormSubmit clockMarch "Rent" "abc" "expense" "other" salaryLedger
        = salaryLedger
    ∧ transactionFormSubmit clockMarch "Rent" "1e-400" "expense" "other" salaryLedger
        = salaryLedger
    ∧ transactionFormSubmit clockMarch "Rent" "-5" "expense" "other" salaryLedger
        = salaryLedger
    ∧ transactionFormSubmit clockMarch " Car " "5" "loan" "other" salaryLedger
        = { id := clockMarch.now, description := "Car", amount := Num.fin 5, type := "loan",
            category := "other", date := isoDate clockMarch } :: salaryLedger := by
  refine ⟨?_, ?_, ?_, ?_, ?_⟩
  · exact (transactionFormSubmit_validation clockMarch "  " "5" "income" "salary"
      salaryLedger).1 (Or.inl (by decide))
  · exact (transactionFormSubmit_validation clockMarch "Rent" "abc" "expense" "other"
      salaryLedger).1 (Or.inr (Or.inr (Or.inl parseFloat_abc)))
  · exact (transactionFormSubmit_validation clockMarch "Rent" "1e-400" "expense" "other"
      salaryLedger).1 (Or.inr (Or.inr (Or.inr (by simp [parseFloat_1e_400, Num.gt, Num.zero]))))
  · exact (transactionFormSubmit_validation clockMarch "Rent" "-5" "expense" "other"
      salaryLedger).1 (Or.inr (Or.inr (Or.inr (by simp [parseFloat_neg_5, Num.gt, Num.zero]))))
  · have htrim : trim " Car " = "Car" := by decide
    have h := (transactionFormSubmit_validation clockMarch " Car " "5" "loan" "other"
      salaryLedger).2 (by decide) (by decide) (by simp [parseFloat_5, Num.gt, Num.zero])
    simpa [htrim, parseFloat_5] using h

/-- A request whose type is neither income nor expense is added by the submit
handler all the same. -/
theorem transactionFormSubmit_accepts_unknown_type :
    "gift" ≠ "income" ∧ "gift" ≠ "expense"
    ∧ transactionFormSubmit clockMarch "Present" "5" "gift" "other" [] ≠ []
    ∧ (transactionFormSubmit clockMarch "Present" "5" "gift" "other" []).map
        (fun t => (t.description, t.amount, t.type))
        = [("Present", Num.fin 5, "gift")] := by
  have htrim : trim "Present" = "Present" := by decide
  refine ⟨by decide, by decide, ?_, ?_⟩ <;>
    simp [transactionFormSubmit, htrim, strTruthy, parseFloat_5, Num.gt, Num.zero,
      addTransaction]

/-! ## Ids -/

/-- A sequence of calls keeps the ids pairwise distinct when the ids of the
starting ledger and the clock values read by the adds are pairwise distinct
taken together. -/
theorem ids_runCalls_nodup (calls : List Call) :
    ∀ L : List Transaction, ((L.map Transaction.id) ++ addClocks calls).Nodup →
      ((runCalls calls L).map Transaction.id).Nodup := by
  induction calls with
  | nil =>
    intro L h
    simpa [runCalls, addClocks] using h
  | cons c rest ih =>
    intro L h
    have hstep : runCalls (c :: rest) L = runCalls rest (c.apply L) := by
      simp [runCalls]
    rw [hstep]
    apply ih
    cases c with
    | add clock description amount type category =>
      simp only [Call.apply, addTransaction, addClocks, List.map_cons] at h ⊢
      have hperm : (clock.now :: (List.map Transaction.id L ++ addClocks rest)).Perm
          (List.map Transaction.id L ++ clock.now :: addClocks rest) :=
        List.perm_middle.symm
      exact hperm.nodup_iff.mpr h
    | delete id =>
      simp only [Call.apply, addClocks] at h ⊢
      refine List.Nodup.sublist ?_ h
      exact List.Sublist.append_right
        ((List.filter_sublist L).map Transaction.id) _
    | clear confirm =>
      simp only [Call.apply, addClocks] at h ⊢
      refine List.Nodup.sublist ?_ h
      refine List.Sublist.append_right (List.Sublist.map Transaction.id ?_) _
      unfold clearAllTransactions
      split
      · exact List.Sublist.refl _
      · split
        · exact List.nil_sublist _
        · exact List.Sublist.refl _

/-- Starting from the empty ledger, the ids stay pairwise distinct as long as
the clock values read by the adds are pairwise distinct. -/
theorem ids_nodup_of_distinct_clocks (calls : List Call) (h : (addClocks calls).Nodup) :
    ((runCalls calls []).map Transaction.id).Nodup :=
  ids_runCalls_nodup calls [] (by simpa using h)

/-- C1: two adds that read the same clock value, as the five adds of
`loadDemoData` do when they run within one millisecond, leave transactions with
equal ids in the ledger: the clock values are non-decreasing and the ids are not
pairwise distinct. -/
theorem ids_not_distinct_same_instant :
    (addClocks twoAddsOneInstant).Sorted (fun a b => a ≤ b)
    ∧ ¬ ((runCalls twoAddsOneInstant []).map Transaction.id).Nodup
    ∧ (loadDemoData (fun _ => clockMarch) []).map Transaction.id
        = [clockMarch.now, clockMarch.now, clockMarch.now, clockMarch.now, clockMarch.now]
    ∧ ¬ ((loadDemoData (fun _ => clockMarch) []).map Transaction.id).Nodup := by
  refine ⟨by simp [twoAddsOneInstant, addClocks], by decide, by decide, by decide⟩

/-! ## Goal progress -/

theorem num_min_fin (x y : ℚ) : Num.min (Num.fin x) (Num.fin y) = Num.fin (min x y) := by
  simp only [Num.min, Num.gt]
  by_cases h : y < x
  · simp [h, min_eq_right (le_of_lt h)]
  · simp [h, min_eq_left (not_lt.mp h)]

theorem num_max_fin (x y : ℚ) : Num.max (Num.fin x) (Num.fin y) = Num.fin (max x y) := by
  simp only [Num.max, Num.gt]
  by_cases h : x < y
  · simp [h, max_eq_right (le_of_lt h)]
  · simp [h, max_eq_left (not_lt.mp h)]

theorem parseFloat_1000 : parseFloat "1000" = Num.fin 1000 := by
  simp [parseFloat, parseUnsigned, isStrWhiteSpaceChar, isDecimalDigit, digitsValue,
    exponentPart, decimalToBinary64_1000, binary64Value]
  norm_num

/-- What `updateIncomeGoalProgress` computes for a finite goal greater than zero
and a finite monthly income. -/
theorem updateIncomeGoalProgress_of_pos (goalValue : String) (g a : ℚ)
    (hg : parseFloat goalValue = Num.fin g) (hpos : 0 < g) :
    updateIncomeGoalProgress goalValue (Num.fin a)
      = { progress := Num.fin (min (a / g * 100) 100)
          goalStatus := GoalStatus.complete (Num.fin (min (a / g * 100) 100))
            (Num.fin (max 0 (g - a))) } := by
  have hne : g ≠ 0 := ne_of_gt hpos
  simp [updateIncomeGoalProgress, hg, Num.truthy, Num.zero, Num.gt, Num.strictEq,
    Num.div, Num.mul, Num.sub, Num.add, Num.neg, hne, hpos, sub_eq_add_neg, num_min_fin,
    num_max_fin]

/-- What `updateIncomeGoalProgress` does when the goal field parses to zero or to
`NaN`: the bar is at 0 and the status asks for a goal. -/
theorem updateIncomeGoalProgress_of_no_goal (goalValue : String) (monthlyIncome : Num)
    (hg : parseFloat goalValue = Num.fin 0 ∨ parseFloat goalValue = Num.nan) :
    updateIncomeGoalProgress goalValue monthlyIncome
      = { progress := Num.fin 0, goalStatus := GoalStatus.setGoal } := by
  rcases hg with hg | hg <;>
    simp [updateIncomeGoalProgress, hg, Num.truthy, Num.zero, Num.gt, Num.strictEq]

/-- What `updateIncomeGoalProgress` does for a finite goal below zero: the bar is
at 0 and the status is the progress text, not the request for a goal. -/
theorem updateIncomeGoalProgress_of_neg (goalValue : String) (g : ℚ) (monthlyIncome : Num)
    (hg : parseFloat goalValue = Num.fin g) (hneg : g < 0) :
    (updateIncomeGoalProgress goalValue monthlyIncome).progress = Num.fin 0
    ∧ (updateIncomeGoalProgress goalValue monthlyIncome).goalStatus
        = GoalStatus.complete (Num.fin 0)
            (Num.max (Num.fin 0) (Num.sub (Num.fin g) monthlyIncome)) := by
  have hne : g ≠ 0 := ne_of_lt hneg
  have hnp : ¬ 0 < g := not_lt.mpr (le_of_lt hneg)
  simp [updateIncomeGoalProgress, hg, Num.truthy, Num.zero, Num.gt, Num.strictEq, hne, hnp]

/-- C7: with the goal field at -5 and a monthly income of 0 the progress is 0,
and the status is the progress text with 0 remaining, not the request to set a
goal. -/
theorem negative_goal_status :
    parseFloat "-5" = Num.fin (-5)
    ∧ updateIncomeGoalProgress "-5" (Num.fin 0)
        = { progress := Num.fin 0
            goalStatus := GoalStatus.complete (Num.fin 0) (Num.fin 0) }
    ∧ (updateIncomeGoalProgress "-5" (Num.fin 0)).goalStatus ≠ GoalStatus.setGoal := by
  have h : updateIncomeGoalProgress "-5" (Num.fin 0)
      = { progress := Num.fin 0
          goalStatus := GoalStatus.complete (Num.fin 0) (Num.fin 0) } := by
    simp [updateIncomeGoalProgress, parseFloat_neg_5, Num.truthy, Num.zero, Num.gt,
      Num.strictEq, Num.sub, Num.add, Num.neg, num_max_fin]
  refine ⟨parseFloat_neg_5, h, ?_⟩
  rw [h]
  simp

/-- C8: for a goal field that parses to a finite `g > 0` and finite monthly
incomes `a ≤ b`, the progress is `min (a / g * 100) 100`, it does not decrease
from `a` to `b`, it is at most 100, and the remaining amount is
`max 0 (g - a)`, which is not negative. -/
theorem goalProgress_monotone_capped (goalValue : String) (g a b : ℚ)
    (hg : parseFloat goalValue = Num.fin g) (hpos : 0 < g) (hab : a ≤ b) :
    (updateIncomeGoalProgress goalValue (Num.fin a)).progress
        = Num.fin (min (a / g * 100) 100)
    ∧ (updateIncomeGoalProgress goalValue (Num.fin b)).progress
        = Num.fin (min (b / g * 100) 100)
    ∧ (updateIncomeGoalProgress goalValue (Num.fin a)).goalStatus
        = GoalStatus.complete (Num.fin (min (a / g * 100) 100)) (Num.fin (max 0 (g - a)))
    ∧ min (a / g * 100) 100 ≤ min (b / g * 100) 100
    ∧ min (b / g * 100) 100 ≤ 100
    ∧ 0 ≤ max 0 (g - a) := by
  rw [updateIncomeGoalProgress_of_pos goalValue g a hg hpos,
    updateIncomeGoalProgress_of_pos goalValue g b hg hpos]
  refine ⟨rfl, rfl, rfl, ?_, min_le_right _ _, le_max_left _ _⟩
  apply min_le_min _ (le_refl _)
  have h1 : a / g ≤ b / g := div_le_div_of_nonneg_right hab (le_of_lt hpos)
  linarith

theorem goalProgress_monotone_capped_witness :
    updateIncomeGoalProgress "1000" (Num.fin 250)
        = { progress := Num.fin 25
            goalStatus := GoalStatus.complete (Num.fin 25) (Num.fin 750) }
    ∧ updateIncomeGoalProgress "1000" (Num.fin 1200)
        = { progress := Num.fin 100
            goalStatus := GoalStatus.complete (Num.fin 100) (Num.fin 0) }
    ∧ (updateIncomeGoalProgress "1000" (Num.fin 250)).progress
        = Num.fin (min (250 / 1000 * 100) 100)
    ∧ min ((250 : ℚ) / 1000 * 100) 100 ≤ min ((1200 : ℚ) / 1000 * 100) 100 := by
  have h := goalProgress_monotone_capped "1000" 1000 250 1200 parseFloat_1000
    (by norm_num) (by norm_num)
  refine ⟨?_, ?_, h.1, h.2.2.2.1⟩
  · rw [updateIncomeGoalProgress_of_pos "1000" 1000 250 parseFloat_1000 (by norm_num)]
    norm_num
  · rw [updateIncomeGoalProgress_of_pos "1000" 1000 1200 parseFloat_1000 (by norm_num)]
    norm_num

/-! ## Monthly aggregates -/

theorem startsWith_append (key rest : String) : startsWith (key ++ rest) key = true := by
  simp [startsWith, String.data_append]

theorem monthlyIncome_eq_sumAmounts (key : String) (L : List Transaction) :
    monthlyIncome key L = sumAmounts (monthlyOfType "income" key L) := by
  simp only [monthlyIncome, monthlyOfType, List.filter_filter]

theorem monthlyExpenses_eq_sumAmounts (key : String) (L : List Transaction) :
    monthlyExpenses key L = sumAmounts (monthlyOfType "expense" key L) := by
  simp only [monthlyExpenses, monthlyOfType, List.filter_filter]

theorem monthlyOfType_skip (type key : String) (L1 L2 : List Transaction) (t : Transaction)
    (h : startsWith t.date key = false) :
    monthlyOfType type key (L1 ++ t :: L2) = monthlyOfType type key (L1 ++ L2) := by
  simp [monthlyOfType, List.filter_append, List.filter_cons, h]

theorem monthlyOfType_keep (type key : String) (L1 L2 : List Transaction) (t : Transaction)
    (hty : t.type = type) (h : startsWith t.date key = true) :
    monthlyOfType type key (L1 ++ t :: L2)
      = monthlyOfType type key L1 ++ t :: monthlyOfType type key L2 := by
  simp [monthlyOfType, List.filter_append, List.filter_cons, hty, h]

theorem sumAmounts_append_singleton (l : List Transaction) (t : Transaction) :
    sumAmounts (l ++ [t]) = Num.add (sumAmounts l) t.amount := by
  simp [sumAmounts, List.foldl_append]

/-- C9: for every ledger and month key, `monthlyIncome` is the reduction, in
ledger order, over exactly the income transactions whose date starts with the
key, `monthlyExpenses` the same over the expense transactions, and `monthlyNet`
their difference; these are the values `updateDashboard` shows for the key
`getCurrentMonth()`, and the listener of the goal field computes the same
monthly income. The transactions summed are those of the ledger with the type
and a date starting with the key, each as often as in the ledger and in
ledger order. A transaction dated `key-day` is among them whatever the day, and
reduced last it adds its amount to the sum of the others; a transaction whose
date does not start with the key changes none of the three aggregates; the
date 2024-01-15 does not start with the key 2024-02. -/
theorem monthly_aggregates_by_prefix (key : String) (L : List Transaction) :
    monthlyIncome key L = sumAmounts (monthlyOfType "income" key L)
    ∧ monthlyExpenses key L = sumAmounts (monthlyOfType "expense" key L)
    ∧ monthlyNet key L = Num.sub (monthlyIncome key L) (monthlyExpenses key L)
    ∧ (∀ (clock : Clock) (goalValue : String),
        (updateDashboard clock goalValue L).monthlyIncome
            = monthlyIncome (getCurrentMonth clock) L
        ∧ (updateDashboard clock goalValue L).monthlyExpenses
            = monthlyExpenses (getCurrentMonth clock) L
        ∧ (updateDashboard clock goalValue L).monthlyNet
            = monthlyNet (getCurrentMonth clock) L
        ∧ incomeGoalInputMonthlyIncome clock L = monthlyIncome (getCurrentMonth clock) L)
    ∧ (∀ (type : String) (t : Transaction),
        (t ∈ monthlyOfType type key L ↔ t ∈ L ∧ t.type = type ∧ startsWith t.date key = true)
        ∧ (t.type = type → startsWith t.date key = true →
            (monthlyOfType type key L).count t = L.count t))
    ∧ (∀ type : String, (monthlyOfType type key L).Sublist L)
    ∧ (∀ (type : String) (L1 L2 : List Transaction) (t : Transaction) (day : String),
        L = L1 ++ t :: L2 → t.type = type → t.date = key ++ "-" ++ day →
        monthlyOfType type key L
          = monthlyOfType type key L1 ++ t :: monthlyOfType type key L2)
    ∧ (∀ (t : Transaction) (day : String), t.type = "income" → t.date = key ++ "-" ++ day →
        monthlyIncome key (L ++ [t]) = Num.add (monthlyIncome key L) t.amount)
    ∧ (∀ (t : Transaction) (day : String), t.type = "expense" → t.date = key ++ "-" ++ day →
        monthlyExpenses key (L ++ [t]) = Num.add (monthlyExpenses key L) t.amount)
    ∧ (∀ (L1 L2 : List Transaction) (t : Transaction), L = L1 ++ t :: L2 →
        startsWith t.date key = false →
        monthlyIncome key L = monthlyIncome key (L1 ++ L2)
        ∧ monthlyExpenses key L = monthlyExpenses key (L1 ++ L2)
        ∧ monthlyNet key L = monthlyNet key (L1 ++ L2))
    ∧ startsWith "2024-01-15" "2024-02" = false := by
  have hday : ∀ (t : Transaction) (day : String), t.date = key ++ "-" ++ day →
      startsWith t.date key = true := by
    intro t day hdate
    rw [hdate, String.append_assoc]
    exact startsWith_append key _
  refine ⟨monthlyIncome_eq_sumAmounts key L, monthlyExpenses_eq_sumAmounts key L, rfl, ?_,
    ?_, ?_, ?_, ?_, ?_, ?_, by decide⟩
  · intro clock goalValue
    exact ⟨rfl, rfl, rfl, (monthlyIncome_eq_sumAmounts _ L).symm⟩
  · intro type t
    constructor
    · simp [monthlyOfType, List.mem_filter]
    · intro hty hs
      unfold monthlyOfType
      rw [List.count_filter]
      simp [hty, hs]
  · intro type
    exact List.filter_sublist L
  · intro type L1 L2 t day hL hty hdate
    rw [hL]
    exact monthlyOfType_keep type key L1 L2 t hty (hday t day hdate)
  · intro t day hty hdate
    have hk := monthlyOfType_keep "income" key L [] t hty (hday t day hdate)
    have hnil : monthlyOfType "income" key [] = [] := rfl
    rw [monthlyIncome_eq_sumAmounts, monthlyIncome_eq_sumAmounts, hk, hnil,
      sumAmounts_append_singleton]
  · intro t day hty hdate
    have hk := monthlyOfType_keep "expense" key L [] t hty (hday t day hdate)
    have hnil : monthlyOfType "expense" key [] = [] := rfl
    rw [monthlyExpenses_eq_sumAmounts, monthlyExpenses_eq_sumAmounts, hk, hnil,
      sumAmounts_append_singleton]
  · intro L1 L2 t hL hs
    have hi : monthlyIncome key L = monthlyIncome key (L1 ++ L2) := by
      rw [hL, monthlyIncome_eq_sumAmounts, monthlyIncome_eq_sumAmounts,
        monthlyOfType_skip "income" key L1 L2 t hs]
    have he : monthlyExpenses key L = monthlyExpenses key (L1 ++ L2) := by
      rw [hL, monthlyExpenses_eq_sumAmounts, monthlyExpenses_eq_sumAmounts,
        monthlyOfType_skip "expense" key L1 L2 t hs]
    exact ⟨hi, he, by simp [monthlyNet, hi, he]⟩

theorem monthly_aggregates_by_prefix_witness :
    monthlyIncome "2024-03" salaryLedger = Num.fin 3500
    ∧ monthlyIncome "2024-02" salaryLedger = Num.fin 0 := by
  have h := monthly_aggregates_by_prefix "2024-03" []
  have h2 := monthly_aggregates_by_prefix "2024-02" salaryLedger
  have hd : isoDate clockMarch = "2024-03" ++ "-" ++ "09" := by decide
  have hn : startsWith (isoDate clockMarch) "2024-02" = false := by decide
  constructor
  · have := h.2.2.2.2.2.2.2.1
      { id := clockMarch.now, description := "Salary", amount := parseFloat "3500",
        type := "income", category := "salary", date := isoDate clockMarch } "09" rfl hd
    simpa [salaryLedger, addTransaction, monthlyIncome, sumAmounts, parseFloat_3500,
      Num.add, Num.zero] using this
  · have := (h2.2.2.2.2.2.2.2.2.2.1 [] []
      { id := clockMarch.now, description := "Salary", amount := parseFloat "3500",
        type := "income", category := "salary", date := isoDate clockMarch } rfl hn).1
    simpa [monthlyIncome, sumAmounts, Num.zero] using this

/-! ## An add and the current month -/

/-- The monthly income `updateDashboard` shows right after an income add at the
same clock reading: when the stored UTC date starts with the local month key,
the reduction over the new transaction followed by the month's income
transactions of the old ledger; the old value otherwise. -/
theorem monthlyIncome_after_add (clock : Clock) (goalValue description amount category : String)
    (L : List Transaction) :
    (updateDashboard clock goalValue
        (addTransaction clock description amount "income" category L)).monthlyIncome
      = if startsWith (isoDate clock) (getCurrentMonth clock) then
          sumAmounts
            ({ id := clock.now, description := description, amount := parseFloat amount,
               type := "income", category := category, date := isoDate clock }
              :: monthlyOfType "income" (getCurrentMonth clock) L)
        else (updateDashboard clock goalValue L).monthlyIncome := by
  simp only [updateDashboard, addTransaction, monthlyIncome_eq_sumAmounts, monthlyOfType]
  by_cases h : startsWith (isoDate clock) (getCurrentMonth clock) = true
  · simp [h, List.filter_cons]
  · simp [h, List.filter_cons]

/-- C10: at 2024-02-01T01:00:00Z in a time zone five hours behind UTC the month
key is 2024-01 and the stored date 2024-02-01; an income of 3500 added to the
empty ledger at that instant is in the total income, and the monthly income
computed at the same instant is still 0. -/
theorem add_outside_current_month :
    getCurrentMonth clockJanLocalFebUtc = "2024-01"
    ∧ isoDate clockJanLocalFebUtc = "2024-02-01"
    ∧ (updateDashboard clockJanLocalFebUtc "" []).monthlyIncome = Num.fin 0
    ∧ (updateDashboard clockJanLocalFebUtc ""
        (transactionFormSubmit clockJanLocalFebUtc "Salary" "3500" "income" "salary"
          [])).totalIncome = Num.fin 3500
    ∧ (updateDashboard clockJanLocalFebUtc ""
        (transactionFormSubmit clockJanLocalFebUtc "Salary" "3500" "income" "salary"
          [])).monthlyIncome = Num.fin 0 := by
  have hk : getCurrentMonth clockJanLocalFebUtc = "2024-01" := by decide
  have hd : isoDate clockJanLocalFebUtc = "2024-02-01" := by decide
  have hs : startsWith "2024-02-01" "2024-01" = false := by decide
  have htrim : trim "Salary" = "Salary" := by decide
  have hsub : transactionFormSubmit clockJanLocalFebUtc "Salary" "3500" "income" "salary" []
      = addTransaction clockJanLocalFebUtc "Salary" "3500" "income" "salary" [] := by
    simp [transactionFormSubmit, htrim, strTruthy, parseFloat_3500, Num.gt, Num.zero]
  refine ⟨hk, hd, ?_, ?_, ?_⟩
  · simp [updateDashboard, monthlyIncome, sumAmounts, Num.zero]
  · rw [hsub]
    simp [updateDashboard, addTransaction, sumAmounts, parseFloat_3500, Num.add, Num.zero]
  · rw [hsub]
    simp [updateDashboard, addTransaction, monthlyIncome, hk, hd, hs, sumAmounts, Num.zero]

end SoloFinance
